import Mathlib

/-!
Verification of `manim_physics/rigid_mechanics/harmonic.py`
(`SpringBlockOscillator`): the curve synthesizer `_redraw_spring`, the
anchor resolver `_block_anchor_point`, the constraint lifecycle
(`_create_joint` / `stop_oscillation`), the state injector
(`start_oscillation` / `reset_displacement`), and the module's name
resolution for the `__init__` constructor.

Machine floats of the Python code are modelled as real numbers; numpy
arrays of shape (3,) as the structure `Vec3`; pymunk 2-d vectors as
`ℝ × ℝ`.  The simulation collaborator `SpaceScene` (module
`rigid_mechanics.rigid_mechanics`, outside the sources at hand) is
modelled from the spec at its interface.
-/

namespace ManimPhysics

/-- A 3-component vector, the model of a numpy array of shape (3,)
(a manim point). -/
structure Vec3 where
  x : ℝ
  y : ℝ
  z : ℝ

instance : Add Vec3 := ⟨fun a b => ⟨a.x + b.x, a.y + b.y, a.z + b.z⟩⟩

instance : Sub Vec3 := ⟨fun a b => ⟨a.x - b.x, a.y - b.y, a.z - b.z⟩⟩

instance : SMul ℝ Vec3 := ⟨fun r v => ⟨r * v.x, r * v.y, r * v.z⟩⟩

/-- `manim.constants.LEFT` = `np.array([-1.0, 0.0, 0.0])`. -/
def LEFT : Vec3 := ⟨-1, 0, 0⟩

/-- `manim.constants.RIGHT` = `np.array([1.0, 0.0, 0.0])`. -/
def RIGHT : Vec3 := ⟨1, 0, 0⟩

/-- `manim.constants.UP` = `np.array([0.0, 1.0, 0.0])`. -/
def UP : Vec3 := ⟨0, 1, 0⟩

/-- `manim.constants.DOWN` = `np.array([0.0, -1.0, 0.0])` (the manim
constant; harmonic.py references this name without importing it, see the
name-resolution model below). -/
def DOWN : Vec3 := ⟨0, -1, 0⟩

/-- `SpringStyle` (harmonic.py lines 20-27): appearance parameters of the
spring.  `coils` is a Python `int`, hence `ℤ`; `stroke_width` and `color`
play no role in the geometry. -/
structure SpringStyle where
  coils : ℤ
  amplitude : ℝ

/-- `np.linalg.norm(axis[:2])` : the euclidean norm of the first two
components of a 3-vector. -/
noncomputable def xyNorm (v : Vec3) : ℝ := Real.sqrt (v.x ^ 2 + v.y ^ 2)

/-- `np.linspace(0, 1, n)` for `n ≥ 2`: `n` uniformly spaced samples of
`[0, 1]`, the `i`-th being `i / (n - 1)`. -/
noncomputable def linspace01 (n : ℕ) : List ℝ :=
  (List.range n).map (fun i : ℕ => (i : ℝ) / ((n : ℝ) - 1))

/-- `resolution = max(4 * self._spring_style.coils, 8)` (harmonic.py
line 114), as a point count. -/
def resolutionOf (st : SpringStyle) : ℕ := (max (4 * st.coils) 8).toNat

/-- The spring axis before the degenerate-axis guard:
`axis = block_point - anchor` (harmonic.py line 105). -/
def rawAxis (anchor far : Vec3) : Vec3 := far - anchor

/-- The axis after the degenerate-axis guard of harmonic.py lines
107-109: if the xy-norm of the raw axis is zero it is replaced by
`RIGHT`. -/
noncomputable def effectiveAxis (anchor far : Vec3) : Vec3 :=
  if xyNorm (rawAxis anchor far) = 0 then RIGHT else rawAxis anchor far

/-- The length used as divisor after the degenerate-axis guard
(harmonic.py lines 106-109): `1` in the degenerate branch, otherwise the
xy-norm of the axis. -/
noncomputable def effectiveLen (anchor far : Vec3) : ℝ :=
  if xyNorm (rawAxis anchor far) = 0 then 1 else xyNorm (rawAxis anchor far)

/-- Componentwise division of a numpy vector by a scalar (`axis / length`,
harmonic.py line 110). -/
noncomputable def Vec3.divR (v : Vec3) (r : ℝ) : Vec3 := ⟨v.x / r, v.y / r, v.z / r⟩

/-- `normal = np.array([-direction[1], direction[0], 0])` (harmonic.py
line 111) applied to `direction = axis / length`. -/
noncomputable def normalOf (axis : Vec3) (len : ℝ) : Vec3 :=
  ⟨-(Vec3.divR axis len).y, (Vec3.divR axis len).x, 0⟩

/-- The curve synthesizer, `SpringBlockOscillator._redraw_spring`
(harmonic.py lines 102-121) as a function of its two endpoint inputs and
the style: the ordered list of sample points handed to
`set_points_smoothly`.  Each point is
`anchor + axis * t + normal * sin(2π * coils * t) * amplitude`. -/
noncomputable def synthesize (anchor far : Vec3) (st : SpringStyle) : List Vec3 :=
  let axis := effectiveAxis anchor far
  let normal := normalOf axis (effectiveLen anchor far)
  (linspace01 (resolutionOf st)).map (fun t =>
    anchor + t • axis + (Real.sin (2 * Real.pi * (st.coils : ℝ) * t) * st.amplitude) • normal)

/-- `Line(a, b).point_from_proportion(t)` for a straight manim line
segment: the point a fraction `t` of the way from `a` to `b`. -/
def pointFromProportion (a b : Vec3) (t : ℝ) : Vec3 := a + t • (b - a)

/-- Construction-time parameters of `SpringBlockOscillator.__init__`
(harmonic.py lines 33-60): configuration, never mutated afterwards. -/
structure OscConfig where
  rest_length : ℝ
  stiffness : ℝ
  damping : ℝ
  block_mass : ℝ
  block_width : ℝ
  block_height : ℝ
  anchor_point : Vec3

/-- The default constructor arguments (harmonic.py lines 35-40). -/
noncomputable def defaultConfig : OscConfig :=
  { rest_length := 2.5, stiffness := 18, damping := 0.7, block_mass := 1.5,
    block_width := 0.8, block_height := 0.8, anchor_point := ⟨-4, 0, 0⟩ }

/-- A pymunk rigid body at the interface the spec gives for the
simulation collaborator: position, linear velocity, angular velocity,
orientation angle, and the sleeping flag toggled by `sleep()` /
`activate()`. -/
structure Body where
  position : ℝ × ℝ
  velocity : ℝ × ℝ
  angular_velocity : ℝ
  angle : ℝ
  sleeping : Bool

/-- The `pymunk.DampedSpring` record built by `_create_joint`
(harmonic.py lines 146-154). -/
structure DampedSpring where
  anchor_xy : ℝ × ℝ
  local_anchor : ℝ × ℝ
  rest_length : ℝ
  stiffness : ℝ
  damping : ℝ

/-- The mutable state of one oscillator: whether `self._spacescene` is
set, the block's simulation body (`self.block.body`, absent until the
block is made a rigid body), `self.spring_joint`, and the number of this
oscillator's joints registered in the simulation space
(`self._spacescene.space.space`). -/
structure OscState where
  spacescene : Bool
  body : Option Body
  spring_joint : Option DampedSpring
  spaceJoints : ℕ

/-- The state of a freshly constructed oscillator (harmonic.py lines
55-56: `self._spacescene = None`, `self.spring_joint = None`; the block
has no simulation body yet). -/
def initState : OscState :=
  { spacescene := false, body := none, spring_joint := none, spaceJoints := 0 }

/-- `SpringBlockOscillator._get_anchor_point` (harmonic.py lines 89-90):
the midpoint of the anchor line, which was drawn from
`anchor_point + 0.6 * UP` to `anchor_point + 0.6 * DOWN` (lines 62-66). -/
noncomputable def get_anchor_point (c : OscConfig) : Vec3 :=
  pointFromProportion (c.anchor_point + (0.6 : ℝ) • UP) (c.anchor_point + (0.6 : ℝ) • DOWN)
    (1 / 2)

/-- `SpringBlockOscillator._block_local_anchor` (harmonic.py lines
92-93): `pymunk.Vec2d(-block_width / 2, 0)`. -/
noncomputable def block_local_anchor (c : OscConfig) : ℝ × ℝ := (-c.block_width / 2, 0)

/-- `pymunk.Vec2d.rotated(angle)`: counterclockwise rotation of a
2-vector. -/
noncomputable def rotated (v : ℝ × ℝ) (angle : ℝ) : ℝ × ℝ :=
  (v.1 * Real.cos angle - v.2 * Real.sin angle,
   v.1 * Real.sin angle + v.2 * Real.cos angle)

/-- The bound branch of `SpringBlockOscillator._block_anchor_point`
(harmonic.py lines 96-99): `body.position + local_anchor rotated by
body.angle`, embedded at z = 0. -/
noncomputable def block_anchor_bound (c : OscConfig) (pos : ℝ × ℝ) (angle : ℝ) : Vec3 :=
  let off := rotated (block_local_anchor c) angle
  ⟨pos.1 + off.1, pos.2 + off.2, 0⟩

/-- The unbound fallback branch of
`SpringBlockOscillator._block_anchor_point` (harmonic.py line 100):
`block.get_center() + LEFT * block_width / 2`. -/
noncomputable def block_anchor_unbound (c : OscConfig) (center : Vec3) : Vec3 :=
  center + (c.block_width / 2) • LEFT

/-- The drawn center of the block at construction (harmonic.py line 73):
`anchor_point + RIGHT * (rest_length + block_width / 2)`. -/
noncomputable def blockDrawnCenter (c : OscConfig) : Vec3 :=
  c.anchor_point + (c.rest_length + c.block_width / 2) • RIGHT

/-- Modelled from the spec: `SpaceScene.make_rigid_body` (module
`rigid_mechanics.rigid_mechanics`, not among the sources here) registers
the shape as dynamic and creates a simulation `Body` for it at the
shape's drawn placement, awake, with no initial motion. -/
noncomputable def makeRigidBody (drawnCenter : Vec3) : Body :=
  { position := (drawnCenter.x, drawnCenter.y), velocity := (0, 0),
    angular_velocity := 0, angle := 0, sleeping := false }

/-- `density = self.block_mass / block_area if block_area else 1`
(harmonic.py lines 132-133). -/
noncomputable def attachDensity (c : OscConfig) : ℝ :=
  if c.block_width * c.block_height = 0 then 1
  else c.block_mass / (c.block_width * c.block_height)

/-- The joint built by `_create_joint` (harmonic.py lines 144-154):
anchored at the xy of the anchor midpoint and at the block's local
anchor, with the configured rest length, stiffness and damping. -/
noncomputable def mkJoint (c : OscConfig) : DampedSpring :=
  { anchor_xy := ((get_anchor_point c).x, (get_anchor_point c).y),
    local_anchor := block_local_anchor c,
    rest_length := c.rest_length, stiffness := c.stiffness, damping := c.damping }

/-- `SpringBlockOscillator._create_joint` (harmonic.py lines 138-156):
a no-op unless the scene is set and the block has a body; a no-op when a
joint is already recorded; otherwise adds a new damped spring to the
space and records it. -/
noncomputable def create_joint (c : OscConfig) (s : OscState) : OscState :=
  if !s.spacescene then s
  else match s.body with
    | none => s
    | some _ =>
      match s.spring_joint with
      | some _ => s
      | none => { s with spring_joint := some (mkJoint c), spaceJoints := s.spaceJoints + 1 }

/-- `SpringBlockOscillator.attach_to_scene` (harmonic.py lines 126-136):
records the scene, makes the anchor static and the block a rigid body
(which creates its simulation body), then calls `_create_joint`. -/
noncomputable def attach_to_scene (c : OscConfig) (s : OscState) : OscState :=
  create_joint c
    { s with spacescene := true, body := some (makeRigidBody (blockDrawnCenter c)) }

/-- The exceptions the modelled methods can raise. -/
inductive PyError where
  | nameError (n : String)
  | runtimeError
  | attributeError
  deriving DecidableEq, Repr

/-- The rest center used by `start_oscillation` and `reset_displacement`
(harmonic.py lines 168-170 and 195-197):
`_get_anchor_point() + RIGHT * (rest_length + block_width / 2)`. -/
noncomputable def restCenter (c : OscConfig) : Vec3 :=
  get_anchor_point c + (c.rest_length + c.block_width / 2) • RIGHT

/-- `SpringBlockOscillator.start_oscillation` (harmonic.py lines
161-177): raises `RuntimeError` when no scene is attached, before any
mutation; otherwise calls `_create_joint`, then sets the body's
position to the displaced rest center, its velocity to `(velocity, 0)`,
its angular velocity and angle to zero, and wakes it (`activate`). -/
noncomputable def start_oscillation (c : OscConfig) (s : OscState) (displacement velocity : ℝ) :
    Except PyError OscState :=
  if !s.spacescene then .error .runtimeError
  else
    let s1 := create_joint c s
    let new_center := restCenter c + displacement • RIGHT
    match s1.body with
    | none => .error .attributeError
    | some _ =>
      let b2 : Body :=
        { position := (new_center.x, new_center.y)
          velocity := (velocity, 0)
          angular_velocity := 0
          angle := 0
          sleeping := false }
      .ok { s1 with body := some b2 }

/-- `SpringBlockOscillator.stop_oscillation` (harmonic.py lines
179-188): a no-op without a scene; removes the joint from the space if
one is recorded and clears the record; puts the body to sleep if it
exists. -/
noncomputable def stop_oscillation (s : OscState) : OscState :=
  if !s.spacescene then s
  else
    let s1 :=
      match s.spring_joint with
      | some _ => { s with spring_joint := none, spaceJoints := s.spaceJoints - 1 }
      | none => s
    match s1.body with
    | some b => { s1 with body := some { b with sleeping := true } }
    | none => s1

/-- `SpringBlockOscillator.reset_displacement` (harmonic.py lines
190-201): a no-op without a body; otherwise repositions the body at the
rest center with zero velocity, zero angular velocity, zero angle,
touching nothing else. -/
noncomputable def reset_displacement (c : OscConfig) (s : OscState) : OscState :=
  match s.body with
  | none => s
  | some b =>
    let b2 : Body :=
      { b with
        position := ((restCenter c).x, (restCenter c).y)
        velocity := (0, 0)
        angular_velocity := 0
        angle := 0 }
    { s with body := some b2 }

/-- The public lifecycle operations of the oscillator. -/
inductive LifeOp where
  | attach
  | start (displacement velocity : ℝ)
  | stop
  | reset

/-- One lifecycle operation applied to a state; a raised exception
propagates to the caller and leaves the state as it was. -/
noncomputable def applyOp (c : OscConfig) (s : OscState) : LifeOp → OscState
  | .attach => attach_to_scene c s
  | .start d v =>
    match start_oscillation c s d v with
    | .ok s1 => s1
    | .error _ => s
  | .stop => stop_oscillation s
  | .reset => reset_displacement c s

/-- A sequence of lifecycle operations run from a state. -/
noncomputable def runOps (c : OscConfig) (s : OscState) : List LifeOp → OscState
  | [] => s
  | op :: rest => runOps c (applyOp c s op) rest

/-- The constraint-count invariant: the number of this oscillator's
joints in the space is one when a joint is recorded and zero
otherwise. -/
def jointInv (s : OscState) : Prop :=
  s.spaceJoints = if s.spring_joint.isSome then 1 else 0

/-!
Name-resolution model of the module for the constructor claim.

`harmonic.py` line 8 imports only `LEFT`, `RIGHT` and `UP` from
`manim.constants`; the `Line` construction at lines 62-66 also loads the
global name `DOWN`.
-/

/-- The names bound at module scope of `harmonic.py` once the module is
imported: line 3 (`annotations`), lines 5-15 (the imports), line 17
(`__all__`), and the two top-level class statements. -/
def moduleGlobals : List String :=
  ["annotations", "dataclass", "Optional", "LEFT", "RIGHT", "UP", "Line", "Rectangle",
   "VMobject", "VGroup", "np", "pymunk", "SpaceScene", "__all__", "SpringStyle",
   "SpringBlockOscillator"]

/-- The CPython builtin names `harmonic.py` references (`DOWN` is not a
Python builtin). -/
def builtinsReferenced : List String :=
  ["super", "hasattr", "tuple", "max", "RuntimeError"]

/-- Whether a global name loaded inside a method of `harmonic.py`
resolves (module globals, then builtins). -/
def resolvesInModule (n : String) : Bool :=
  moduleGlobals.contains n || builtinsReferenced.contains n

/-- The global names `__init__` loads, in execution order, up to the
first statement past the anchor `Line` construction (harmonic.py lines
47-75): `super` (line 47), `SpringStyle` (line 58, only when no
`spring_style` argument was passed), then `Line`, `UP`, `DOWN` for the
anchor line (lines 62-64), then `Rectangle` (line 68), `RIGHT`
(line 73), `VMobject` (line 75).  No other part of lines 47-84 loads a
global, and none of the loads depends on any other constructor
argument. -/
def initGlobalLoads (springStyleArgPassed : Bool) : List String :=
  ["super"] ++ (if springStyleArgPassed then [] else ["SpringStyle"]) ++
    ["Line", "UP", "DOWN", "Rectangle", "RIGHT", "VMobject"]

/-- The first global name a load sequence fails to resolve, if any:
execution raises `NameError` there. -/
def firstUnresolvedName (loads : List String) : Option String :=
  loads.find? (fun n => !resolvesInModule n)

/-- The outcome of the name-resolution part of running `__init__`:
`NameError` at the first unresolvable global load, otherwise
completion. -/
def initNameCheck (springStyleArgPassed : Bool) : Except PyError Unit :=
  match firstUnresolvedName (initGlobalLoads springStyleArgPassed) with
  | some n => .error (.nameError n)
  | none => .ok ()

/-- The body state the spec's state injector prescribes after
`start(displacement, velocity)`: at the rest position (anchor point plus
rest length plus half the block width, along the spring axis) offset by
the displacement, with velocity `(v, 0)`, no spin, zero angle, awake. -/
noncomputable def specInjectedBody (c : OscConfig) (d v : ℝ) : Body :=
  { position := (c.anchor_point.x + (c.rest_length + c.block_width / 2) + d,
      c.anchor_point.y)
    velocity := (v, 0)
    angular_velocity := 0
    angle := 0
    sleeping := false }

/-- The body state the spec prescribes after `reset`: at the rest
position with zero velocity, zero spin, zero angle, all else as
before. -/
noncomputable def specRestBody (c : OscConfig) (b : Body) : Body :=
  { b with
    position := (c.anchor_point.x + (c.rest_length + c.block_width / 2), c.anchor_point.y)
    velocity := (0, 0)
    angular_velocity := 0
    angle := 0 }

/-!  Lemmas and theorems. -/

@[simp] theorem Vec3.add_def (a b : Vec3) : a + b = ⟨a.x + b.x, a.y + b.y, a.z + b.z⟩ := rfl

@[simp] theorem Vec3.sub_def (a b : Vec3) : a - b = ⟨a.x - b.x, a.y - b.y, a.z - b.z⟩ := rfl

@[simp] theorem Vec3.smul_def (r : ℝ) (v : Vec3) : r • v = ⟨r * v.x, r * v.y, r * v.z⟩ := rfl

theorem Vec3.ext_comp {a b : Vec3} (hx : a.x = b.x) (hy : a.y = b.y) (hz : a.z = b.z) :
    a = b := by
  cases a; cases b; simp_all

/-- The anchor line's midpoint is the configured anchor point:
`0.6 * UP` and `0.6 * DOWN` cancel. -/
theorem get_anchor_point_eq (c : OscConfig) : get_anchor_point c = c.anchor_point := by
  apply Vec3.ext_comp <;>
    simp [get_anchor_point, pointFromProportion, UP, DOWN] <;> ring

/-- `_create_joint` never touches the block's body. -/
theorem create_joint_body (c : OscConfig) (s : OscState) :
    (create_joint c s).body = s.body := by
  unfold create_joint
  split
  · rfl
  · split
    · rfl
    · split <;> rfl

/-- `_create_joint` never touches the scene reference. -/
theorem create_joint_spacescene (c : OscConfig) (s : OscState) :
    (create_joint c s).spacescene = s.spacescene := by
  unfold create_joint
  split
  · rfl
  · split
    · rfl
    · split <;> rfl

/-- C1: for every choice of constructor arguments,
`SpringBlockOscillator.__init__` raises `NameError` before completing:
the anchor `Line` is constructed with the name `DOWN`, which the module
never binds (it imports only `LEFT`, `RIGHT`, `UP` from
`manim.constants`), so no oscillator instance can be constructed through
the module's public interface. -/
theorem init_raises_nameError_DOWN :
    ∀ springStyleArgPassed : Bool,
      initNameCheck springStyleArgPassed = .error (.nameError "DOWN") := by
  intro b
  cases b <;> rfl

/-- C2 counterexample: `attach_to_scene` on a fresh (unattached)
oscillator does NOT leave it without an active constraint — it already
creates the spring joint itself (harmonic.py line 136 calls
`_create_joint`), so the claim that a constraint only becomes active at
`start_oscillation` is false at the default configuration. -/
theorem attach_already_creates_joint :
    (attach_to_scene defaultConfig initState).spring_joint.isSome = true ∧
      (attach_to_scene defaultConfig initState).spaceJoints = 1 :=
  ⟨rfl, rfl⟩

/-- C2 amended: after `attach_to_scene` on an unattached oscillator the
oscillator is attached with the spring constraint already active:
`attach_to_scene` records the scene, creates the block's body, and
itself creates exactly one spring joint. -/
theorem attach_transitions_to_attached_with_joint (c : OscConfig) :
    (attach_to_scene c initState).spacescene = true ∧
      (attach_to_scene c initState).body = some (makeRigidBody (blockDrawnCenter c)) ∧
      (attach_to_scene c initState).spring_joint = some (mkJoint c) ∧
      (attach_to_scene c initState).spaceJoints = 1 :=
  ⟨rfl, rfl, rfl, rfl⟩

/-- C10: the anchor resolver's unbound fallback agrees with its bound
computation whenever the body's angle is zero and its position is the
block's drawn center (a planar point): no discontinuity at the moment of
attachment. -/
theorem anchor_resolver_continuous_at_attachment (c : OscConfig) (center : Vec3)
    (pos : ℝ × ℝ) (angle : ℝ) (hangle : angle = 0)
    (hpos : pos = (center.x, center.y)) (hz : center.z = 0) :
    block_anchor_bound c pos angle = block_anchor_unbound c center := by
  subst hangle hpos
  apply Vec3.ext_comp <;>
    simp [block_anchor_bound, block_anchor_unbound, rotated, block_local_anchor, LEFT, hz] <;>
    ring

/-- Witness for C10 at angle 0, drawn center `(1, 2, 0)`, body position
`(1, 2)` under the default configuration. -/
theorem anchor_resolver_continuous_at_attachment_witness :
    block_anchor_bound defaultConfig (1, 2) 0 = block_anchor_unbound defaultConfig ⟨1, 2, 0⟩ :=
  anchor_resolver_continuous_at_attachment defaultConfig ⟨1, 2, 0⟩ (1, 2) 0 rfl rfl rfl

/-- C3: on an attached oscillator (scene set, body present),
`start_oscillation(d, v)` returns, in one call, the state whose joint
record is that of `_create_joint` and whose body sits at the rest
position offset by `d` along the spring axis, with velocity `(v, 0)`,
zero angular velocity, zero angle, awake. -/
theorem start_sets_initial_condition (c : OscConfig) (s : OscState) (b : Body)
    (d v : ℝ) (hatt : s.spacescene = true) (hbody : s.body = some b) :
    start_oscillation c s d v =
      .ok { create_joint c s with body := some (specInjectedBody c d v) } := by
  unfold start_oscillation
  rw [hatt]
  simp only [Bool.not_true, Bool.false_eq_true, if_false, create_joint_body, hbody]
  simp [specInjectedBody, restCenter, get_anchor_point_eq, RIGHT]

/-- Witness for C3: default configuration, the state right after
`attach_to_scene`, displacement 1, velocity 2. -/
theorem start_sets_initial_condition_witness :
    (attach_to_scene defaultConfig initState).spacescene = true ∧
      start_oscillation defaultConfig (attach_to_scene defaultConfig initState) 1 2 =
        .ok { create_joint defaultConfig (attach_to_scene defaultConfig initState) with
          body := some (specInjectedBody defaultConfig 1 2) } :=
  ⟨rfl, start_sets_initial_condition defaultConfig (attach_to_scene defaultConfig initState)
    (makeRigidBody (blockDrawnCenter defaultConfig)) 1 2 rfl rfl⟩

/-- C8: `start_oscillation` before `attach_to_scene` raises
`RuntimeError` to the caller, and the state is left untouched (the raise
is the first statement of the method, before any mutation). -/
theorem start_before_attach_is_error (c : OscConfig) (s : OscState) (d v : ℝ)
    (h : s.spacescene = false) :
    start_oscillation c s d v = .error .runtimeError ∧
      applyOp c s (.start d v) = s := by
  have h1 : start_oscillation c s d v = .error .runtimeError := by
    unfold start_oscillation
    rw [h]
    rfl
  exact ⟨h1, by simp only [applyOp]; rw [h1]⟩

/-- Witness for C8: a fresh oscillator, displacement 1, velocity 2. -/
theorem start_before_attach_is_error_witness :
    initState.spacescene = false ∧
      (start_oscillation defaultConfig initState 1 2 = .error .runtimeError ∧
        applyOp defaultConfig initState (.start 1 2) = initState) :=
  ⟨rfl, start_before_attach_is_error defaultConfig initState 1 2 rfl⟩

/-- C9: whenever the block has a simulation body, `reset_displacement`
moves the body to the rest position with zero velocity and leaves the
constraint record and the space's joint count exactly as they were; no
scene attachment is required. -/
theorem reset_repositions_and_preserves_constraint (c : OscConfig) (s : OscState) (b : Body)
    (h : s.body = some b) :
    reset_displacement c s = { s with body := some (specRestBody c b) } ∧
      (reset_displacement c s).spring_joint = s.spring_joint ∧
      (reset_displacement c s).spaceJoints = s.spaceJoints := by
  have h1 : reset_displacement c s = { s with body := some (specRestBody c b) } := by
    unfold reset_displacement
    rw [h]
    simp [specRestBody, restCenter, get_anchor_point_eq, RIGHT]
  exact ⟨h1, by rw [h1], by rw [h1]⟩

/-- Witness for C9: the state right after `attach_to_scene` at the
default configuration (a body and an active joint are present). -/
theorem reset_repositions_and_preserves_constraint_witness :
    (attach_to_scene defaultConfig initState).body =
        some (makeRigidBody (blockDrawnCenter defaultConfig)) ∧
      (reset_displacement defaultConfig (attach_to_scene defaultConfig initState) =
        { attach_to_scene defaultConfig initState with
          body := some (specRestBody defaultConfig
            (makeRigidBody (blockDrawnCenter defaultConfig))) } ∧
      (reset_displacement defaultConfig (attach_to_scene defaultConfig initState)).spring_joint =
        (attach_to_scene defaultConfig initState).spring_joint ∧
      (reset_displacement defaultConfig (attach_to_scene defaultConfig initState)).spaceJoints =
        (attach_to_scene defaultConfig initState).spaceJoints) :=
  ⟨rfl, reset_repositions_and_preserves_constraint defaultConfig
    (attach_to_scene defaultConfig initState)
    (makeRigidBody (blockDrawnCenter defaultConfig)) rfl⟩

/-- A fresh oscillator satisfies the constraint-count invariant. -/
theorem jointInv_initState : jointInv initState := by
  simp [jointInv, initState]

/-- `_create_joint` preserves the constraint-count invariant: it either
leaves the state alone or creates the single joint when none was
recorded. -/
theorem jointInv_create_joint (c : OscConfig) (s : OscState) (h : jointInv s) :
    jointInv (create_joint c s) := by
  unfold create_joint
  split
  · exact h
  · split
    · exact h
    · split
      · exact h
      · rename_i heq
        simp [jointInv, heq] at h
        simp [jointInv, h]

/-- Every lifecycle operation preserves the constraint-count
invariant. -/
theorem jointInv_applyOp (c : OscConfig) (s : OscState) (op : LifeOp) (h : jointInv s) :
    jointInv (applyOp c s op) := by
  cases op with
  | attach =>
    simp only [applyOp, attach_to_scene]
    apply jointInv_create_joint
    simpa [jointInv] using h
  | start d v =>
    cases hsc : s.spacescene with
    | false => simpa [applyOp, start_oscillation, hsc] using h
    | true =>
      cases hb : (create_joint c s).body with
      | none => simpa [applyOp, start_oscillation, hsc, hb] using h
      | some b =>
        have h2 := jointInv_create_joint c s h
        simp only [applyOp, start_oscillation, hsc, hb]
        simp only [jointInv] at h2 ⊢
        simpa using h2
  | stop =>
    cases hsc : s.spacescene with
    | false => simpa [applyOp, stop_oscillation, hsc] using h
    | true =>
      cases hj : s.spring_joint with
      | none =>
        cases hb : s.body with
        | none => simpa [applyOp, stop_oscillation, hsc, hj, hb] using h
        | some b =>
          simp [jointInv, hj] at h
          simp [applyOp, stop_oscillation, hsc, hj, hb, jointInv, h]
      | some j =>
        cases hb : s.body with
        | none =>
          simp [jointInv, hj] at h
          simp [applyOp, stop_oscillation, hsc, hj, hb, jointInv, h]
        | some b =>
          simp [jointInv, hj] at h
          simp [applyOp, stop_oscillation, hsc, hj, hb, jointInv, h]
  | reset =>
    cases hb : s.body with
    | none => simpa [applyOp, reset_displacement, hb] using h
    | some b =>
      simp [jointInv, hb] at h ⊢
      simpa [applyOp, reset_displacement, hb, jointInv] using h

/-- Any sequence of lifecycle operations preserves the constraint-count
invariant. -/
theorem jointInv_runOps (c : OscConfig) (ops : List LifeOp) (s : OscState)
    (h : jointInv s) : jointInv (runOps c s ops) := by
  induction ops generalizing s with
  | nil => exact h
  | cons op rest ih => exact ih _ (jointInv_applyOp c s op h)

/-- C7: in every reachable oscillator state the space holds at most one
of this oscillator's spring joints (exactly one when a joint is
recorded); `_create_joint` is a no-op while a joint is recorded;
`attach` followed by two consecutive `start`s leaves exactly one joint,
and so does `attach`, `start`, `stop`, `start`. -/
theorem at_most_one_active_constraint (c : OscConfig) (ops : List LifeOp)
    (d v d2 v2 : ℝ) (s : OscState) (hs : s.spring_joint.isSome = true) :
    jointInv (runOps c initState ops) ∧
      (runOps c initState ops).spaceJoints ≤ 1 ∧
      create_joint c s = s ∧
      (runOps c initState [.attach, .start d v, .start d2 v2]).spaceJoints = 1 ∧
      (runOps c initState [.attach, .start d v, .stop, .start d2 v2]).spaceJoints = 1 := by
  have hinv := jointInv_runOps c ops initState jointInv_initState
  refine ⟨hinv, ?_, ?_, rfl, rfl⟩
  · rw [jointInv] at hinv
    rw [hinv]
    split <;> omega
  · unfold create_joint
    split
    · rfl
    · split
      · rfl
      · split
        · rfl
        · rename_i heq
          rw [heq] at hs
          simp at hs

/-- Witness for C7: default configuration, the run `attach; stop`, and a
state holding a recorded joint. -/
theorem at_most_one_active_constraint_witness :
    ({ spacescene := true, body := none, spring_joint := some (mkJoint defaultConfig),
        spaceJoints := 1 } : OscState).spring_joint.isSome = true ∧
      (jointInv (runOps defaultConfig initState [.attach, .stop]) ∧
        (runOps defaultConfig initState [.attach, .stop]).spaceJoints ≤ 1 ∧
        create_joint defaultConfig
            { spacescene := true, body := none, spring_joint := some (mkJoint defaultConfig),
              spaceJoints := 1 } =
          { spacescene := true, body := none, spring_joint := some (mkJoint defaultConfig),
            spaceJoints := 1 } ∧
        (runOps defaultConfig initState
            [.attach, .start 1 0, .start 0 2]).spaceJoints = 1 ∧
        (runOps defaultConfig initState
            [.attach, .start 1 0, .stop, .start 0 2]).spaceJoints = 1) :=
  ⟨rfl, at_most_one_active_constraint defaultConfig [.attach, .stop] 1 0 0 2
    { spacescene := true, body := none, spring_joint := some (mkJoint defaultConfig),
      spaceJoints := 1 } rfl⟩

/-- The resolution floor: `max(4 * coils, 8)` is at least 8 points. -/
theorem resolution_ge_8 (st : SpringStyle) : 8 ≤ resolutionOf st := by
  have h8 : (8:ℤ) ≤ max (4 * st.coils) 8 := le_max_right _ _
  unfold resolutionOf
  omega

/-- The non-degenerate branch of the guard: the axis is the raw
difference of the endpoints. -/
theorem effectiveAxis_of_ne (anchor far : Vec3) (h : xyNorm (rawAxis anchor far) ≠ 0) :
    effectiveAxis anchor far = far - anchor := by
  unfold effectiveAxis
  rw [if_neg h]
  rfl

/-- The non-degenerate branch of the guard: the divisor is the xy-norm
of the axis. -/
theorem effectiveLen_of_ne (anchor far : Vec3) (h : xyNorm (rawAxis anchor far) ≠ 0) :
    effectiveLen anchor far = xyNorm (rawAxis anchor far) := by
  unfold effectiveLen
  rw [if_neg h]

/-- C4: for a non-degenerate axis the synthesized curve is exactly the
map, over `max(4 * coils, 8)` parameter values sampled uniformly on
`[0, 1]`, of `t ↦ anchor + axis * t + normal * amplitude * sin(2π *
coils * t)` with `axis = far - anchor` and `normal` the in-plane
perpendicular of `axis / |axis|`; the synthesizer is a plain function of
its three inputs, so no state is carried between invocations. -/
theorem synthesize_pointwise_formula (anchor far : Vec3) (st : SpringStyle)
    (h : xyNorm (rawAxis anchor far) ≠ 0) :
    synthesize anchor far st =
      (linspace01 (resolutionOf st)).map (fun t =>
        anchor + t • (far - anchor) +
          (st.amplitude * Real.sin (2 * Real.pi * (st.coils : ℝ) * t)) •
            normalOf (far - anchor) (xyNorm (rawAxis anchor far))) ∧
      ((synthesize anchor far st).length : ℤ) = max (4 * st.coils) 8 ∧
      (∀ t, t ∈ linspace01 (resolutionOf st) ↔
        ∃ i : ℕ, i < resolutionOf st ∧ t = (i : ℝ) / ((resolutionOf st : ℝ) - 1)) := by
  refine ⟨?_, ?_, ?_⟩
  · simp only [synthesize, effectiveAxis_of_ne anchor far h, effectiveLen_of_ne anchor far h,
      rawAxis]
    apply List.map_congr_left
    intro t ht
    congr 1
    rw [mul_comm]
  · have hlen : (synthesize anchor far st).length = resolutionOf st := by
      simp [synthesize, linspace01]
    rw [hlen]
    unfold resolutionOf
    rw [Int.toNat_of_nonneg (le_trans (by norm_num) (le_max_right (4 * st.coils) 8))]
  · intro t
    simp only [linspace01, List.mem_map, List.mem_range]
    constructor
    · rintro ⟨i, hi, rfl⟩
      exact ⟨i, hi, rfl⟩
    · rintro ⟨i, hi, rfl⟩
      exact ⟨i, hi, rfl⟩

/-- Witness for C4: anchor at the origin, far point `(1, 0, 0)`, the
default style (12 coils, amplitude 1/10). -/
theorem synthesize_pointwise_formula_witness :
    synthesize ⟨0, 0, 0⟩ ⟨1, 0, 0⟩ { coils := 12, amplitude := 1/10 } =
      (linspace01 (resolutionOf { coils := 12, amplitude := 1/10 })).map (fun t =>
        (⟨0, 0, 0⟩ : Vec3) + t • ((⟨1, 0, 0⟩ : Vec3) - ⟨0, 0, 0⟩) +
          ((1/10 : ℝ) * Real.sin (2 * Real.pi * ((12 : ℤ) : ℝ) * t)) •
            normalOf ((⟨1, 0, 0⟩ : Vec3) - ⟨0, 0, 0⟩)
              (xyNorm (rawAxis ⟨0, 0, 0⟩ ⟨1, 0, 0⟩))) ∧
      ((synthesize ⟨0, 0, 0⟩ ⟨1, 0, 0⟩ { coils := 12, amplitude := 1/10 }).length : ℤ) =
        max (4 * 12) 8 ∧
      (∀ t, t ∈ linspace01 (resolutionOf { coils := 12, amplitude := 1/10 }) ↔
        ∃ i : ℕ, i < resolutionOf { coils := 12, amplitude := 1/10 } ∧
          t = (i : ℝ) / ((resolutionOf { coils := 12, amplitude := 1/10 } : ℝ) - 1)) :=
  synthesize_pointwise_formula ⟨0, 0, 0⟩ ⟨1, 0, 0⟩ { coils := 12, amplitude := 1/10 }
    (by simp [xyNorm, rawAxis])

/-- C5: for a non-degenerate axis and a positive coil count the first
synthesized point is the anchor point and the last is the far point. -/
theorem synthesize_endpoint_exactness (anchor far : Vec3) (st : SpringStyle)
    (h : xyNorm (rawAxis anchor far) ≠ 0) (hc : 0 < st.coils) :
    (synthesize anchor far st).head? = some anchor ∧
      (synthesize anchor far st).getLast? = some far := by
  have hn8 : 8 ≤ resolutionOf st := resolution_ge_8 st
  have hsyn : synthesize anchor far st =
      ((List.range (resolutionOf st)).map
          (fun i : ℕ => (i : ℝ) / ((resolutionOf st : ℝ) - 1))).map
        (fun t => anchor + t • (far - anchor) +
          (Real.sin (2 * Real.pi * (st.coils : ℝ) * t) * st.amplitude) •
            normalOf (far - anchor) (xyNorm (rawAxis anchor far))) := by
    simp only [synthesize, linspace01, effectiveAxis_of_ne anchor far h,
      effectiveLen_of_ne anchor far h]
  constructor
  · rw [hsyn, List.head?_map, List.head?_map]
    rw [List.head?_eq_getElem?, List.getElem?_range (by omega : 0 < resolutionOf st)]
    simp only [Option.map_some']
    congr 1
    have ht : ((0 : ℕ) : ℝ) / ((resolutionOf st : ℝ) - 1) = 0 := by
      simp
    rw [ht]
    apply Vec3.ext_comp <;> simp
  · rw [hsyn, List.getLast?_map, List.getLast?_map]
    rw [List.getLast?_eq_getElem?, List.length_range,
      List.getElem?_range (by omega : resolutionOf st - 1 < resolutionOf st)]
    simp only [Option.map_some']
    congr 1
    have ht : ((resolutionOf st - 1 : ℕ) : ℝ) / ((resolutionOf st : ℝ) - 1) = 1 := by
      have hcast : ((resolutionOf st - 1 : ℕ) : ℝ) = (resolutionOf st : ℝ) - 1 := by
        push_cast [Nat.cast_sub (by omega : 1 ≤ resolutionOf st)]
        ring
      have hne : (resolutionOf st : ℝ) - 1 ≠ 0 := by
        have : (8 : ℝ) ≤ (resolutionOf st : ℝ) := by exact_mod_cast hn8
        linarith
      rw [hcast, div_self hne]
    rw [ht]
    have hsin : Real.sin (2 * Real.pi * (st.coils : ℝ) * 1) = 0 := by
      have harg : 2 * Real.pi * (st.coils : ℝ) * 1 = ((2 * st.coils : ℤ) : ℝ) * Real.pi := by
        push_cast
        ring
      rw [harg, Real.sin_int_mul_pi]
    rw [hsin]
    apply Vec3.ext_comp <;> simp

/-- Witness for C5: anchor at the origin, far point `(1, 0, 0)`, the
default style (12 coils, amplitude 1/10). -/
theorem synthesize_endpoint_exactness_witness :
    (synthesize ⟨0, 0, 0⟩ ⟨1, 0, 0⟩ { coils := 12, amplitude := 1/10 }).head? =
        some ⟨0, 0, 0⟩ ∧
      (synthesize ⟨0, 0, 0⟩ ⟨1, 0, 0⟩ { coils := 12, amplitude := 1/10 }).getLast? =
        some ⟨1, 0, 0⟩ :=
  synthesize_endpoint_exactness ⟨0, 0, 0⟩ ⟨1, 0, 0⟩ { coils := 12, amplitude := 1/10 }
    (by simp [xyNorm, rawAxis]) (by norm_num)

/-- C6: when anchor and far point coincide the degenerate-axis guard
fires: the divisor becomes the nonzero constant 1, the axis is replaced
by the default direction `RIGHT`, and synthesis still returns its full,
non-empty sample list. -/
theorem synthesize_degenerate_safe (anchor far : Vec3) (st : SpringStyle)
    (h : far = anchor) :
    effectiveLen anchor far = 1 ∧
      effectiveLen anchor far ≠ 0 ∧
      effectiveAxis anchor far = RIGHT ∧
      (synthesize anchor far st).length = resolutionOf st ∧
      0 < (synthesize anchor far st).length := by
  subst h
  have h0 : xyNorm (rawAxis far far) = 0 := by
    simp [xyNorm, rawAxis]
  have hlen1 : effectiveLen far far = 1 := by
    unfold effectiveLen
    rw [if_pos h0]
  have hlen : (synthesize far far st).length = resolutionOf st := by
    simp only [synthesize, linspace01, List.length_map, List.length_range]
  refine ⟨hlen1, by rw [hlen1]; norm_num, ?_, hlen, ?_⟩
  · unfold effectiveAxis
    rw [if_pos h0]
  · rw [hlen]
    have := resolution_ge_8 st
    omega

/-- Witness for C6: anchor and far point both at the origin, the default
style (12 coils, amplitude 1/10). -/
theorem synthesize_degenerate_safe_witness :
    effectiveLen ⟨0, 0, 0⟩ ⟨0, 0, 0⟩ = 1 ∧
      effectiveLen ⟨0, 0, 0⟩ ⟨0, 0, 0⟩ ≠ 0 ∧
      effectiveAxis ⟨0, 0, 0⟩ ⟨0, 0, 0⟩ = RIGHT ∧
      (synthesize ⟨0, 0, 0⟩ ⟨0, 0, 0⟩ { coils := 12, amplitude := 1/10 }).length =
        resolutionOf { coils := 12, amplitude := 1/10 } ∧
      0 < (synthesize ⟨0, 0, 0⟩ ⟨0, 0, 0⟩ { coils := 12, amplitude := 1/10 }).length :=
  synthesize_degenerate_safe ⟨0, 0, 0⟩ ⟨0, 0, 0⟩ { coils := 12, amplitude := 1/10 } rfl

end ManimPhysics
